import Mathlib

/-!
Verification development for the lattice-lab entity fabric.

Shallow embedding of the core subsystems of the repository:
the hybrid logical clock (internal/hlc/hlc.go), the CRDT entity merge
(internal/crdt/merge.go), the in-memory entity store
(internal/store/store.go) and the mesh relay token bucket
(internal/mesh/relay.go).  Go machine integers are modelled as Nat with an
explicit modulus where overflow matters (the uint32 logical counter);
Go float64 token arithmetic is modelled over Rat; Go maps are modelled as
functions into Option; fallible operations return Option.
-/

/-- Modulus of the Go uint32 logical counter. -/
def U32 : Nat := 4294967296

/-- Lexicographic comparison of character lists, the model of Go
strings.Compare (byte-lexicographic order; UTF-8 encoding preserves
codepoint order, so comparing codepoints is order-equivalent). -/
def strCmpAux : List Char → List Char → Int
  | [], [] => 0
  | [], _ :: _ => -1
  | _ :: _, [] => 1
  | a :: as, b :: bs =>
    if a.toNat < b.toNat then -1
    else if b.toNat < a.toNat then 1
    else strCmpAux as bs

/-- Model of Go strings.Compare. -/
def strCmp (s t : String) : Int := strCmpAux s.data t.data

/-- Model of hlc.Timestamp: (Physical uint64 ns, Logical uint32, Node string). -/
structure Timestamp where
  physical : Nat
  logical : Nat
  node : String
deriving DecidableEq

/-- Model of hlc.Compare: -1 if a < b, 0 if a == b, 1 if a > b;
physical first, then logical, then node lexicographically. -/
def Compare (a b : Timestamp) : Int :=
  if a.physical < b.physical then -1
  else if b.physical < a.physical then 1
  else if a.logical < b.logical then -1
  else if b.logical < a.logical then 1
  else strCmp a.node b.node

/-- Model of Timestamp.After: Compare(t, other) == 1. -/
def Timestamp.after (t other : Timestamp) : Bool := Compare t other == 1

/-- Model of Timestamp.Before: Compare(t, other) == -1. -/
def Timestamp.before (t other : Timestamp) : Bool := Compare t other == -1

/-- Strict order on timestamps used in the statements: a is ordered
strictly before b under the total order. -/
def tsLt (a b : Timestamp) : Prop := Compare a b = -1

instance (a b : Timestamp) : Decidable (tsLt a b) := by
  unfold tsLt; infer_instance

/-- Modelled from the spec: the proto enum entity.v1.ThreatLevel (the
generated gen/entity/v1 package is not under src/).  The spec orders the
levels NONE < LOW < MEDIUM < HIGH; proto enums reserve 0 for UNSPECIFIED,
so the wire numbering is UNSPECIFIED=0, NONE=1, LOW=2, MEDIUM=3, HIGH=4. -/
inductive ThreatLevel where
  | unspecified
  | none
  | low
  | medium
  | high
deriving DecidableEq

/-- Wire number of a threat level; mergeThreat compares these numbers. -/
def ThreatLevel.toNat : ThreatLevel → Nat
  | .unspecified => 0
  | .none => 1
  | .low => 2
  | .medium => 3
  | .high => 4

/-- Modelled from the spec: the proto enum entity.v1.EntityType
(UNSPECIFIED, ASSET, TRACK, GEO). -/
inductive EntityType where
  | unspecified
  | asset
  | track
  | geo
deriving DecidableEq

/-- Model of a component payload (anypb.Any): either a well-formed
ThreatComponent (level plus any further serialized content, abstracted as
a Nat) or an opaque blob of another type, on which UnmarshalTo into
ThreatComponent fails. -/
inductive Payload where
  | threat (level : ThreatLevel) (extra : Nat)
  | blob (data : Nat)
deriving DecidableEq

/-- Model of any.UnmarshalTo(&ThreatComponent): succeeds exactly on
threat payloads. -/
def unmarshalThreat : Payload → Option ThreatLevel
  | .threat l _ => some l
  | .blob _ => Option.none

/-- Model of entityv1.Entity: id, type, component map, wall timestamps
(nil pointers modelled as Option.none) and the flattened HLC fields. -/
structure Entity where
  id : String
  type : EntityType
  components : String → Option Payload
  createdAt : Option Nat
  updatedAt : Option Nat
  hlcPhysical : Nat
  hlcLogical : Nat
  hlcNode : String

/-- Model of crdt.entityHLC: the HLC timestamp from an entity's fields. -/
def entityHLC (e : Entity) : Timestamp :=
  { physical := e.hlcPhysical, logical := e.hlcLogical, node := e.hlcNode }

/-- Model of crdt.mergeThreat: max-wins on threat level; a payload that
fails to unmarshal loses; equal levels fall back to HLC, b on ties. -/
def mergeThreat (a b : Payload) (hlcA hlcB : Timestamp) : Payload :=
  match unmarshalThreat a with
  | Option.none => b
  | some la =>
    match unmarshalThreat b with
    | Option.none => a
    | some lb =>
      if lb.toNat < la.toNat then a
      else if la.toNat < lb.toNat then b
      else if Timestamp.after hlcA hlcB then a else b

/-- Model of crdt.mergeComponent: threat key dispatches to mergeThreat,
every other key is LWW on the entity-level HLCs with b winning ties. -/
def mergeComponent (key : String) (compA compB : Payload)
    (hlcA hlcB : Timestamp) : Payload :=
  if key = "threat" then mergeThreat compA compB hlcA hlcB
  else if Timestamp.after hlcA hlcB then compA else compB

/-- Model of crdt.MergeEntity: result carries a's id, type, created_at and
updated_at, the higher of the two entity HLCs, and the per-key merge of
the two component maps over the union of their keys. -/
def MergeEntity (a b : Entity) : Entity :=
  let hlcA := entityHLC a
  let hlcB := entityHLC b
  let winHLC := if Timestamp.after hlcB hlcA then hlcB else hlcA
  { id := a.id
    type := a.type
    components := fun k =>
      match a.components k, b.components k with
      | some ca, Option.none => some ca
      | Option.none, some cb => some cb
      | some ca, some cb => some (mergeComponent k ca cb hlcA hlcB)
      | Option.none, Option.none => Option.none
    createdAt := a.createdAt
    updatedAt := a.updatedAt
    hlcPhysical := winHLC.physical
    hlcLogical := winHLC.logical
    hlcNode := winHLC.node }

/-- Model of hlc.Clock state: node id plus (lastPhysical, lastLogical). -/
structure ClockState where
  node : String
  lastPhysical : Nat
  lastLogical : Nat
deriving DecidableEq

/-- Model of Clock.Now with the wall-clock reading passed explicitly.
The uint32 increment of lastLogical wraps modulo 2^32. -/
def clockNow (wall : Nat) (c : ClockState) : ClockState :=
  if c.lastPhysical < wall then
    { c with lastPhysical := wall, lastLogical := 0 }
  else
    { c with lastLogical := (c.lastLogical + 1) % U32 }

/-- Model of Clock.Update with the wall-clock reading passed explicitly;
the switch mirrors the four cases of the Go code, uint32 increments wrap. -/
def clockUpdate (wall : Nat) (remote : Timestamp) (c : ClockState) : ClockState :=
  let maxPhys := max (max wall c.lastPhysical) remote.physical
  let newLogical :=
    if maxPhys = c.lastPhysical ∧ maxPhys = remote.physical then
      if remote.logical < c.lastLogical then (c.lastLogical + 1) % U32
      else (remote.logical + 1) % U32
    else if maxPhys = c.lastPhysical then (c.lastLogical + 1) % U32
    else if maxPhys = remote.physical then (remote.logical + 1) % U32
    else 0
  { c with lastPhysical := maxPhys, lastLogical := newLogical }

/-- Timestamp returned by a clock call: both Now and Update return the
post-state (lastPhysical, lastLogical, node). -/
def emit (c : ClockState) : Timestamp :=
  { physical := c.lastPhysical, logical := c.lastLogical, node := c.node }

/-- One call on a clock: Now(wall) or Update(wall, remote). -/
inductive ClockOp where
  | now (wall : Nat)
  | update (wall : Nat) (remote : Timestamp)

/-- State transition of one clock call. -/
def clockStep (c : ClockState) : ClockOp → ClockState
  | .now w => clockNow w c
  | .update w r => clockUpdate w r c

/-- Timestamps returned by a sequence of clock calls, in order. -/
def runEmits (c : ClockState) : List ClockOp → List Timestamp
  | [] => []
  | op :: ops => emit (clockStep c op) :: runEmits (clockStep c op) ops

/-- The next call does not wrap the uint32 logical counter. -/
def noWrap (c : ClockState) : ClockOp → Bool
  | .now w => decide (c.lastPhysical < w) || decide (c.lastLogical + 1 < U32)
  | .update _ r => decide (c.lastLogical + 1 < U32) && decide (r.logical + 1 < U32)

/-- No call in the sequence wraps the uint32 logical counter. -/
def wrapFree (c : ClockState) : List ClockOp → Bool
  | [] => true
  | op :: ops => noWrap c op && wrapFree (clockStep c op) ops

/-- Model of storev1.EventType. -/
inductive EventType where
  | created
  | updated
  | deleted
deriving DecidableEq

/-- Model of storev1.EntityEvent; origin_node is a plain proto string
field whose zero value is the empty string. -/
structure EntityEvent where
  eventType : EventType
  entity : Entity
  originNode : String

/-- Model of store.Watcher: the filter together with the buffered event
channel, modelled as the queued events plus the channel capacity
(store.Watch allocates the channel with capacity 64). -/
structure Watcher where
  filter : EntityType
  buffer : List EntityEvent
  capacity : Nat

/-- Model of the per-watcher send in Store.notify: skip on filter
mismatch; otherwise a non-blocking channel send that enqueues when the
buffer has room and silently drops the event when it is full. -/
def notifyWatcher (ev : EntityEvent) (w : Watcher) : Watcher :=
  if w.filter ≠ EntityType.unspecified ∧ w.filter ≠ ev.entity.type then w
  else if w.buffer.length < w.capacity then
    { w with buffer := w.buffer ++ [ev] }
  else w

/-- Model of store.Store: node id of its clock, the entity map and the
registered watchers (the TTL map and the clock counters are not needed by
the claims below; the HLC stamp of each write enters as an argument). -/
structure StoreState where
  nodeId : String
  entities : String → Option Entity
  watchers : List Watcher

/-- Model of Store.notify: offer the event to every watcher. -/
def storeNotify (s : StoreState) (ev : EntityEvent) : StoreState :=
  { s with watchers := s.watchers.map (notifyWatcher ev) }

/-- Model of Store.Create with the HLC stamp and wall clock passed
explicitly: error if the id exists, else stamp, insert and emit CREATED.
The Go code builds the event literal without an OriginNode field, so the
event carries the proto zero value "". -/
def storeCreate (s : StoreState) (e : Entity) (ts : Timestamp) (now : Nat) :
    Option (StoreState × Entity × EntityEvent) :=
  match s.entities e.id with
  | some _ => Option.none
  | Option.none =>
    let stored : Entity :=
      { e with createdAt := some now, updatedAt := some now,
               hlcPhysical := ts.physical, hlcLogical := ts.logical,
               hlcNode := ts.node }
    let ev : EntityEvent :=
      { eventType := .created, entity := stored, originNode := "" }
    let s1 : StoreState :=
      { s with entities := fun i => if i = e.id then some stored else s.entities i }
    some (storeNotify s1 ev, stored, ev)

/-- Model of the merged entity computed by Store.Update: start from the
existing entity, accept incoming component keys that are new, overwrite a
shared key exactly when Compare(incoming hlc, existing hlc) >= 0, then
overwrite type from the input and stamp the fresh store HLC. -/
def updateMerge (existing e : Entity) (ts : Timestamp) (now : Nat) : Entity :=
  { existing with
    components := fun k =>
      match e.components k with
      | Option.none => existing.components k
      | some c =>
        match existing.components k with
        | Option.none => some c
        | some prev =>
          if 0 ≤ Compare (entityHLC e) (entityHLC existing) then some c
          else some prev
    type := e.type
    updatedAt := some now
    hlcPhysical := ts.physical
    hlcLogical := ts.logical
    hlcNode := ts.node }

/-- Model of Store.Update with the HLC stamp and wall clock passed
explicitly: error if the id is missing, else store the key-scoped merge
and emit UPDATED; the event again carries origin_node = "". -/
def storeUpdate (s : StoreState) (e : Entity) (ts : Timestamp) (now : Nat) :
    Option (StoreState × Entity × EntityEvent) :=
  match s.entities e.id with
  | Option.none => Option.none
  | some existing =>
    let merged := updateMerge existing e ts now
    let ev : EntityEvent :=
      { eventType := .updated, entity := merged, originNode := "" }
    let s1 : StoreState :=
      { s with entities := fun i => if i = e.id then some merged else s.entities i }
    some (storeNotify s1 ev, merged, ev)

/-- Model of Store.Delete: error if the id is missing, else remove and
emit DELETED carrying the last entity; origin_node again "". -/
def storeDelete (s : StoreState) (id : String) :
    Option (StoreState × EntityEvent) :=
  match s.entities id with
  | Option.none => Option.none
  | some e =>
    let ev : EntityEvent :=
      { eventType := .deleted, entity := e, originNode := "" }
    let s1 : StoreState :=
      { s with entities := fun i => if i = id then Option.none else s.entities i }
    some (storeNotify s1 ev, ev)

/-- Relay priority constants (mesh/relay.go). -/
def PriorityNone : Nat := 0

/-- Relay priority constant LOW. -/
def PriorityLow : Nat := 1

/-- Relay priority constant MEDIUM. -/
def PriorityMedium : Nat := 2

/-- Relay priority constant HIGH. -/
def PriorityHigh : Nat := 3

/-- Relay priority constant DELETE. -/
def PriorityDelete : Nat := 4

/-- Model of mesh.TokenBucket state; Go float64 fields are modelled over
Rat (the time bookkeeping field lastTime becomes the elapsed argument of
tbAllow). -/
structure TokenBucket where
  tokens : Rat
  maxTokens : Rat
  rate : Rat

/-- Model of TokenBucket.Allow with the elapsed seconds passed
explicitly: priorities at or above HIGH bypass; otherwise the balance is
adjusted by elapsed*rate (no guard on negative elapsed), capped at
maxTokens, then the cost is deducted when it fits. -/
def tbAllow (tb : TokenBucket) (elapsed : Rat) (bytes : Nat) (priority : Nat) :
    Bool × TokenBucket :=
  if PriorityHigh ≤ priority then (true, tb)
  else
    let t1 := tb.tokens + elapsed * tb.rate
    let t2 := if tb.maxTokens < t1 then tb.maxTokens else t1
    let cost : Rat := (bytes : Rat)
    if t2 < cost then (false, { tb with tokens := t2 })
    else (true, { tb with tokens := t2 - cost })

/-! Order lemmas for the string and timestamp comparison. -/

/-- Comparing a character list with itself yields 0. -/
theorem strCmpAux_self (s : List Char) : strCmpAux s s = 0 := by
  induction s with
  | nil => rfl
  | cons a as ih => simp [strCmpAux, ih]

/-- The string comparison is antisymmetric: swapping the arguments swaps
-1 and 1 and fixes 0; in particular it only takes these three values. -/
theorem strCmpAux_antisym (s t : List Char) :
    (strCmpAux s t = -1 ∧ strCmpAux t s = 1) ∨
    (strCmpAux s t = 0 ∧ strCmpAux t s = 0) ∨
    (strCmpAux s t = 1 ∧ strCmpAux t s = -1) := by
  induction s generalizing t with
  | nil =>
    cases t with
    | nil => exact Or.inr (Or.inl ⟨rfl, rfl⟩)
    | cons b bs => exact Or.inl ⟨rfl, rfl⟩
  | cons a as ih =>
    cases t with
    | nil => exact Or.inr (Or.inr ⟨rfl, rfl⟩)
    | cons b bs =>
      by_cases h1 : a.toNat < b.toNat
      · exact Or.inl ⟨by simp [strCmpAux, h1],
          by simp [strCmpAux, h1, Nat.lt_asymm h1]⟩
      · by_cases h2 : b.toNat < a.toNat
        · exact Or.inr (Or.inr ⟨by simp [strCmpAux, h1, h2],
            by simp [strCmpAux, h2]⟩)
        · have hrec := ih bs
          simpa [strCmpAux, h1, h2] using hrec

/-- Timestamp comparison against itself yields 0. -/
theorem compare_self (t : Timestamp) : Compare t t = 0 := by
  simp [Compare, strCmp, strCmpAux_self]

/-- Timestamp comparison is antisymmetric and three-valued. -/
theorem compare_antisym (a b : Timestamp) :
    (Compare a b = -1 ∧ Compare b a = 1) ∨
    (Compare a b = 0 ∧ Compare b a = 0) ∨
    (Compare a b = 1 ∧ Compare b a = -1) := by
  unfold Compare
  rcases Nat.lt_trichotomy a.physical b.physical with hp | hp | hp
  · exact Or.inl ⟨by simp [hp], by simp [hp, Nat.lt_asymm hp]⟩
  · rcases Nat.lt_trichotomy a.logical b.logical with hl | hl | hl
    · exact Or.inl ⟨by simp [hp, hl], by simp [hp, hl, Nat.lt_asymm hl]⟩
    · have := strCmpAux_antisym a.node.data b.node.data
      simpa [hp, hl, strCmp] using this
    · exact Or.inr (Or.inr ⟨by simp [hp, hl, Nat.le_of_lt hl],
        by simp [hp, hl, Nat.lt_asymm hl]⟩)
  · exact Or.inr (Or.inr ⟨by simp [hp, Nat.lt_asymm hp, Nat.le_of_lt hp],
      by simp [hp]⟩)

/-- After is false on a self comparison. -/
theorem after_self (t : Timestamp) : Timestamp.after t t = false := by
  simp [Timestamp.after, compare_self]

/-- After in one direction means not-After in the other. -/
theorem after_of_compare_eq_one {a b : Timestamp} (h : Compare a b = 1) :
    Timestamp.after a b = true ∧ Timestamp.after b a = false := by
  rcases compare_antisym a b with ⟨h1, _⟩ | ⟨h1, _⟩ | ⟨h1, h2⟩
  · rw [h1] at h; exact absurd h (by decide)
  · rw [h1] at h; exact absurd h (by decide)
  · simp [Timestamp.after, h1, h2]

/-- Comparison of two timestamps on the same node is the lexicographic
order on the (physical, logical) pair. -/
theorem compare_same_node (p l q m : Nat) (n : String) :
    Compare ⟨p, l, n⟩ ⟨q, m, n⟩ = -1 ↔ (p < q ∨ (p = q ∧ l < m)) := by
  unfold Compare
  rcases Nat.lt_trichotomy p q with hp | hp | hp
  · simp [hp]
  · rcases Nat.lt_trichotomy l m with hl | hl | hl
    · simp [hp, hl]
    · simp [hp, hl, strCmp, strCmpAux_self]
    · simp [hp, hl, Nat.lt_asymm hl]
  · simp [hp, Nat.lt_asymm hp]; omega

/-! Lemmas about the CRDT merge. -/

/-- mergeThreat is symmetric when the entity HLCs are distinct under the
total order and at least one side is a well-formed threat payload. -/
theorem mergeThreat_comm (ca cb : Payload) (hlcA hlcB : Timestamp)
    (hne : Compare hlcA hlcB ≠ 0)
    (hok : unmarshalThreat ca ≠ Option.none ∨ unmarshalThreat cb ≠ Option.none) :
    mergeThreat ca cb hlcA hlcB = mergeThreat cb ca hlcB hlcA := by
  rcases compare_antisym hlcA hlcB with ⟨h1, h2⟩ | ⟨h1, _⟩ | ⟨h1, h2⟩
  · have haf := after_of_compare_eq_one h2
    cases ca with
    | blob da =>
      cases cb with
      | blob db => simp [unmarshalThreat] at hok
      | threat lb xb => simp [mergeThreat, unmarshalThreat]
    | threat la xa =>
      cases cb with
      | blob db => simp [mergeThreat, unmarshalThreat]
      | threat lb xb =>
        rcases Nat.lt_trichotomy la.toNat lb.toNat with hl | hl | hl
        · simp [mergeThreat, unmarshalThreat, hl, Nat.lt_asymm hl]
        · simp [mergeThreat, unmarshalThreat, hl, haf.1, haf.2]
        · simp [mergeThreat, unmarshalThreat, hl, Nat.lt_asymm hl]
  · exact absurd h1 hne
  · have haf := after_of_compare_eq_one h1
    cases ca with
    | blob da =>
      cases cb with
      | blob db => simp [unmarshalThreat] at hok
      | threat lb xb => simp [mergeThreat, unmarshalThreat]
    | threat la xa =>
      cases cb with
      | blob db => simp [mergeThreat, unmarshalThreat]
      | threat lb xb =>
        rcases Nat.lt_trichotomy la.toNat lb.toNat with hl | hl | hl
        · simp [mergeThreat, unmarshalThreat, hl, Nat.lt_asymm hl]
        · simp [mergeThreat, unmarshalThreat, hl, haf.1, haf.2]
        · simp [mergeThreat, unmarshalThreat, hl, Nat.lt_asymm hl]

/-- mergeComponent is symmetric when the entity HLCs are distinct and, on
the threat key, at least one side is a well-formed threat payload. -/
theorem mergeComponent_comm (k : String) (ca cb : Payload)
    (hlcA hlcB : Timestamp) (hne : Compare hlcA hlcB ≠ 0)
    (hok : k = "threat" →
      unmarshalThreat ca ≠ Option.none ∨ unmarshalThreat cb ≠ Option.none) :
    mergeComponent k ca cb hlcA hlcB = mergeComponent k cb ca hlcB hlcA := by
  by_cases hk : k = "threat"
  · simp only [mergeComponent, hk, if_pos rfl]
    exact mergeThreat_comm ca cb hlcA hlcB hne (hok hk)
  · rcases compare_antisym hlcA hlcB with ⟨h1, h2⟩ | ⟨h1, _⟩ | ⟨h1, h2⟩
    · have haf := after_of_compare_eq_one h2
      simp [mergeComponent, hk, haf.1, haf.2]
    · exact absurd h1 hne
    · have haf := after_of_compare_eq_one h1
      simp [mergeComponent, hk, haf.1, haf.2]

/-- Merging a payload with itself under equal HLCs returns it unchanged. -/
theorem mergeComponent_self (k : String) (c : Payload) (h : Timestamp) :
    mergeComponent k c c h h = c := by
  unfold mergeComponent mergeThreat
  cases hc : unmarshalThreat c <;> simp [after_self]

/-! Concrete entities used in counterexamples and witnesses. -/

/-- Entity with one opaque component and HLC (10,0,"n"). -/
def ceA : Entity :=
  { id := "e1", type := .track,
    components := fun k => if k = "pos" then some (.blob 1) else Option.none,
    createdAt := Option.none, updatedAt := Option.none,
    hlcPhysical := 10, hlcLogical := 0, hlcNode := "n" }

/-- Same id and the same HLC as ceA but a different payload under "pos". -/
def ceB : Entity :=
  { id := "e1", type := .track,
    components := fun k => if k = "pos" then some (.blob 2) else Option.none,
    createdAt := Option.none, updatedAt := Option.none,
    hlcPhysical := 10, hlcLogical := 0, hlcNode := "n" }

/-- Entity with component "position", HLC (10,0,"n1"), created_at 100. -/
def mA : Entity :=
  { id := "m1", type := .track,
    components := fun k => if k = "position" then some (.blob 1) else Option.none,
    createdAt := some 100, updatedAt := Option.none,
    hlcPhysical := 10, hlcLogical := 0, hlcNode := "n1" }

/-- Entity with component "velocity", HLC (20,0,"n2"), created_at 50. -/
def mB : Entity :=
  { id := "m1", type := .asset,
    components := fun k => if k = "velocity" then some (.blob 2) else Option.none,
    createdAt := some 50, updatedAt := Option.none,
    hlcPhysical := 20, hlcLogical := 0, hlcNode := "n2" }

/-- Entity with a LOW threat component and the higher HLC (200,0,"n1"). -/
def tA : Entity :=
  { id := "t1", type := .track,
    components := fun k => if k = "threat" then some (.threat .low 7) else Option.none,
    createdAt := Option.none, updatedAt := Option.none,
    hlcPhysical := 200, hlcLogical := 0, hlcNode := "n1" }

/-- Entity with a HIGH threat component and the lower HLC (100,0,"n2"). -/
def tB : Entity :=
  { id := "t1", type := .track,
    components := fun k => if k = "threat" then some (.threat .high 9) else Option.none,
    createdAt := Option.none, updatedAt := Option.none,
    hlcPhysical := 100, hlcLogical := 0, hlcNode := "n2" }

/-- C2, counterexample: MergeEntity is not commutative on values as
stated.  ceA and ceB share id "e1" and carry the same HLC (10,0,"n") but
different payloads under key "pos"; the merge resolves the tie to its
second argument, so the two merge orders return different values. -/
theorem merge_commutativity_counterexample :
    ceA.id = ceB.id ∧
    (MergeEntity ceA ceB).components "pos" = some (Payload.blob 2) ∧
    (MergeEntity ceB ceA).components "pos" = some (Payload.blob 1) ∧
    (MergeEntity ceA ceB).components "pos" ≠ (MergeEntity ceB ceA).components "pos" := by
  refine ⟨rfl, ?_, ?_, ?_⟩ <;> decide

/-- C2 (amended): for entities with equal ids whose entity-level HLCs are
distinct under the total order, and whose "threat" payloads (when the key
is present on both sides) do not both fail to unmarshal, MergeEntity is
commutative on component keys and values; and MergeEntity(a,a) has the
same components and the same HLC as a. -/
theorem merge_commutes_of_distinct_hlc (a b : Entity)
    (_hid : a.id = b.id)
    (hne : Compare (entityHLC a) (entityHLC b) ≠ 0)
    (hok : ∀ pa pb, a.components "threat" = some pa →
      b.components "threat" = some pb →
      unmarshalThreat pa ≠ Option.none ∨ unmarshalThreat pb ≠ Option.none) :
    (∀ k, (MergeEntity a b).components k = (MergeEntity b a).components k) ∧
    (∀ k, (MergeEntity a a).components k = a.components k) ∧
    entityHLC (MergeEntity a a) = entityHLC a := by
  refine ⟨?_, ?_, ?_⟩
  · intro k
    simp only [MergeEntity]
    cases ha : a.components k <;> cases hb : b.components k <;> simp [ha, hb]
    rename_i ca cb
    refine mergeComponent_comm k ca cb (entityHLC a) (entityHLC b) hne ?_
    intro hk
    subst hk
    exact hok ca cb ha hb
  · intro k
    simp only [MergeEntity]
    cases ha : a.components k <;> simp [ha, mergeComponent_self]
  · simp [MergeEntity, entityHLC, after_self]

/-- C2, witness at concrete entities mA and mB. -/
theorem merge_commutes_witness :
    mA.id = mB.id ∧ Compare (entityHLC mA) (entityHLC mB) ≠ 0 ∧
    (∀ k, (MergeEntity mA mB).components k = (MergeEntity mB mA).components k) :=
  ⟨rfl, by decide,
    (merge_commutes_of_distinct_hlc mA mB rfl (by decide)
      (fun pa pb hpa hpb => by simp [mA] at hpa)).1⟩

/-- C3, counterexample: mB carries the strictly greater HLC and a
different type, yet the merge takes type and created_at from mA (its
first argument), not from the higher-HLC input, and created_at is not the
minimum of the two set values. -/
theorem merge_type_created_at_counterexample :
    Compare (entityHLC mA) (entityHLC mB) = -1 ∧
    mA.type = EntityType.track ∧ mB.type = EntityType.asset ∧
    (MergeEntity mA mB).type = EntityType.track ∧
    mA.createdAt = some 100 ∧ mB.createdAt = some 50 ∧
    (MergeEntity mA mB).createdAt = some 100 := by
  refine ⟨?_, rfl, rfl, rfl, rfl, rfl, rfl⟩
  decide

/-- C3 (amended): MergeEntity copies id, type, created_at and updated_at
unconditionally from its first argument; only the HLC is taken from the
input with the greater entity-level HLC. -/
theorem merge_metadata_from_first_argument (a b : Entity) :
    (MergeEntity a b).id = a.id ∧
    (MergeEntity a b).type = a.type ∧
    (MergeEntity a b).createdAt = a.createdAt ∧
    (MergeEntity a b).updatedAt = a.updatedAt ∧
    entityHLC (MergeEntity a b) =
      (if Timestamp.after (entityHLC b) (entityHLC a) then entityHLC b
       else entityHLC a) :=
  ⟨rfl, rfl, rfl, rfl, rfl⟩

/-- C6: when both entities carry well-formed threat payloads under key
"threat", the greater threat level wins in MergeEntity regardless of the
HLCs, and on equal levels the side with the greater entity-level HLC
wins. -/
theorem merge_threat_max_wins (a b : Entity) (la lb : ThreatLevel) (xa xb : Nat)
    (ha : a.components "threat" = some (Payload.threat la xa))
    (hb : b.components "threat" = some (Payload.threat lb xb)) :
    (lb.toNat < la.toNat →
      (MergeEntity a b).components "threat" = some (Payload.threat la xa)) ∧
    (la.toNat < lb.toNat →
      (MergeEntity a b).components "threat" = some (Payload.threat lb xb)) ∧
    (la = lb →
      (Compare (entityHLC a) (entityHLC b) = 1 →
        (MergeEntity a b).components "threat" = some (Payload.threat la xa)) ∧
      (Compare (entityHLC b) (entityHLC a) = 1 →
        (MergeEntity a b).components "threat" = some (Payload.threat lb xb))) := by
  have hres : (MergeEntity a b).components "threat" =
      some (mergeThreat (Payload.threat la xa) (Payload.threat lb xb)
        (entityHLC a) (entityHLC b)) := by
    simp [MergeEntity, ha, hb, mergeComponent]
  refine ⟨?_, ?_, ?_⟩
  · intro h
    rw [hres]
    simp [mergeThreat, unmarshalThreat, h]
  · intro h
    rw [hres]
    simp [mergeThreat, unmarshalThreat, h, Nat.lt_asymm h]
  · intro heq
    subst heq
    constructor
    · intro h1
      have haf := after_of_compare_eq_one h1
      rw [hres]
      simp [mergeThreat, unmarshalThreat, haf.1]
    · intro h2
      have haf := after_of_compare_eq_one h2
      rw [hres]
      simp [mergeThreat, unmarshalThreat, haf.2]

/-- C6, witness: tA has LOW threat with the higher HLC, tB has HIGH
threat with the lower HLC; HIGH wins. -/
theorem merge_threat_max_wins_witness :
    tA.components "threat" = some (Payload.threat ThreatLevel.low 7) ∧
    tB.components "threat" = some (Payload.threat ThreatLevel.high 9) ∧
    ThreatLevel.low.toNat < ThreatLevel.high.toNat ∧
    (MergeEntity tA tB).components "threat" = some (Payload.threat ThreatLevel.high 9) :=
  ⟨rfl, rfl, by decide,
    (merge_threat_max_wins tA tB .low .high 7 9 rfl rfl).2.1 (by decide)⟩

/-! Store claims. -/

/-- Entity used as stored state in store witnesses: stamped HLC
(1000,2,"node-A"), components position and threat. -/
def exE : Entity :=
  { id := "s1", type := .track,
    components := fun k =>
      if k = "position" then some (.blob 10)
      else if k = "threat" then some (.threat .low 1) else Option.none,
    createdAt := some 40, updatedAt := some 40,
    hlcPhysical := 1000, hlcLogical := 2, hlcNode := "node-A" }

/-- Incoming update for exE: stale HLC (5,0,"remote"), writes position
and a new key classification, and a different type. -/
def inE : Entity :=
  { id := "s1", type := .asset,
    components := fun k =>
      if k = "position" then some (.blob 99)
      else if k = "classification" then some (.blob 7) else Option.none,
    createdAt := Option.none, updatedAt := Option.none,
    hlcPhysical := 5, hlcLogical := 0, hlcNode := "remote" }

/-- Store state holding exE under its id, with node id "node-A". -/
def sWith : StoreState :=
  { nodeId := "node-A",
    entities := fun i => if i = "s1" then some exE else Option.none,
    watchers := [] }

/-- Fresh HLC stamp used for the store write in the witnesses. -/
def tsW : Timestamp := { physical := 2000, logical := 0, node := "node-A" }

/-- The value Store.Update produces when the entity exists: packaged for
reuse in the store theorems. -/
def storeUpdateResult (s : StoreState) (existing e : Entity)
    (ts : Timestamp) (now : Nat) : StoreState × Entity × EntityEvent :=
  let merged := updateMerge existing e ts now
  let ev : EntityEvent :=
    { eventType := .updated, entity := merged, originNode := "" }
  let s1 : StoreState :=
    { s with entities := fun i => if i = e.id then some merged else s.entities i }
  (storeNotify s1 ev, merged, ev)

/-- Store.Update on an existing entity returns storeUpdateResult. -/
theorem storeUpdate_eq_some (s : StoreState) (e existing : Entity)
    (ts : Timestamp) (now : Nat)
    (hex : s.entities e.id = some existing) :
    storeUpdate s e ts now = some (storeUpdateResult s existing e ts now) := by
  unfold storeUpdate storeUpdateResult
  rw [hex]

/-- C1: Store.Update of an existing entity performs the key-scoped merge:
input keys absent from the stored entity are accepted; a key present in
both is overwritten by the input exactly when the input entity HLC
compares greater than or equal to the stored entity HLC; stored keys
absent from the input are retained. -/
theorem store_update_key_scoped_merge (s : StoreState) (e existing : Entity)
    (ts : Timestamp) (now : Nat)
    (hex : s.entities e.id = some existing) :
    ∃ r, storeUpdate s e ts now = some r ∧
      ∀ k,
        (∀ c, e.components k = some c → existing.components k = Option.none →
          r.2.1.components k = some c) ∧
        (∀ c p, e.components k = some c → existing.components k = some p →
          r.2.1.components k =
            some (if 0 ≤ Compare (entityHLC e) (entityHLC existing) then c
                  else p)) ∧
        (e.components k = Option.none →
          r.2.1.components k = existing.components k) := by
  refine ⟨storeUpdateResult s existing e ts now,
    storeUpdate_eq_some s e existing ts now hex, ?_⟩
  intro k
  refine ⟨?_, ?_, ?_⟩
  · intro c hc hn
    simp [storeUpdateResult, updateMerge, hc, hn]
  · intro c p hc hp
    by_cases hcmp : 0 ≤ Compare (entityHLC e) (entityHLC existing)
    · simp [storeUpdateResult, updateMerge, hc, hp, hcmp]
    · simp [storeUpdateResult, updateMerge, hc, hp, hcmp]
  · intro hn
    simp [storeUpdateResult, updateMerge, hn]

/-- C1, witness: concrete update of sWith by inE at key "position"
(present in both, stale input, stored payload kept). -/
theorem store_update_key_scoped_merge_witness :
    sWith.entities inE.id = some exE ∧
    ∃ r, storeUpdate sWith inE tsW 41 = some r ∧
      ∀ k,
        (∀ c, inE.components k = some c → exE.components k = Option.none →
          r.2.1.components k = some c) ∧
        (∀ c p, inE.components k = some c → exE.components k = some p →
          r.2.1.components k =
            some (if 0 ≤ Compare (entityHLC inE) (entityHLC exE) then c
                  else p)) ∧
        (inE.components k = Option.none →
          r.2.1.components k = exE.components k) :=
  ⟨rfl, store_update_key_scoped_merge sWith inE exE tsW 41 rfl⟩

/-- C10: Store.Update writes the input entity's type into the stored
entity unconditionally, independently of the HLC comparison. -/
theorem store_update_overwrites_type_unconditionally (s : StoreState)
    (e existing : Entity) (ts : Timestamp) (now : Nat)
    (hex : s.entities e.id = some existing) :
    ∃ r, storeUpdate s e ts now = some r ∧ r.2.1.type = e.type :=
  ⟨storeUpdateResult s existing e ts now,
    storeUpdate_eq_some s e existing ts now hex, rfl⟩

/-- C10, witness: the input inE is stale (its HLC compares -1 against the
stored exE) and its per-key write to "position" is dropped, yet the
stored type changes to inE's type. -/
theorem store_update_overwrites_type_witness :
    sWith.entities inE.id = some exE ∧
    Compare (entityHLC inE) (entityHLC exE) = -1 ∧
    exE.type ≠ inE.type ∧
    (∃ r, storeUpdate sWith inE tsW 41 = some r ∧ r.2.1.type = inE.type) :=
  ⟨rfl, by decide, by decide,
    store_update_overwrites_type_unconditionally sWith inE exE tsW 41 rfl⟩

/-- C5, code evaluation: the store emits its events with origin_node
equal to the proto zero value "", never the store node id.  Evaluated on
the concrete store sWith (node id "node-A") for Create, Update and
Delete. -/
theorem store_events_origin_node_empty :
    sWith.nodeId = "node-A" ∧
    ((storeCreate sWith { inE with id := "s2" } tsW 41).map
      fun r => r.2.2.originNode) = some "" ∧
    ((storeUpdate sWith inE tsW 41).map fun r => r.2.2.originNode) = some "" ∧
    ((storeDelete sWith "s1").map fun r => r.2.originNode) = some "" ∧
    "" ≠ sWith.nodeId :=
  ⟨rfl, rfl, rfl, rfl, by decide⟩

/-- C7, code evaluation: when a watcher's buffer is full, the store's
non-blocking send drops the event and leaves the watcher (and hence every
field of the store state) unchanged; no drop counter exists in the state
to be incremented. -/
theorem notify_full_buffer_drops_event (w : Watcher) (ev : EntityEvent)
    (h : w.capacity ≤ w.buffer.length) :
    notifyWatcher ev w = w := by
  have hlt : ¬ w.buffer.length < w.capacity := Nat.not_lt.mpr h
  simp only [notifyWatcher, if_neg hlt]
  split <;> rfl

/-- Event used to fill watcher buffers in the C7 witness. -/
def evW : EntityEvent :=
  { eventType := .created, entity := exE, originNode := "" }

/-- Watcher with the store's channel capacity 64 and a full buffer. -/
def wFull : Watcher :=
  { filter := .unspecified, buffer := List.replicate 64 evW, capacity := 64 }

/-- C7, witness: the full watcher wFull is unchanged by a notify. -/
theorem notify_full_buffer_drops_event_witness :
    wFull.capacity ≤ wFull.buffer.length ∧ notifyWatcher evW wFull = wFull :=
  ⟨by simp [wFull], notify_full_buffer_drops_event wFull evW (by simp [wFull])⟩

/-! Clock lemmas. -/

/-- Compare returns -1 when the physical fields already decide. -/
theorem compare_lt_of_phys_lt {a b : Timestamp} (h : a.physical < b.physical) :
    Compare a b = -1 := by
  unfold Compare
  simp [h]

/-- Compare returns -1 when physicals tie and logicals decide. -/
theorem compare_lt_of_logical_lt {a b : Timestamp}
    (hp : a.physical = b.physical) (h : a.logical < b.logical) :
    Compare a b = -1 := by
  unfold Compare
  simp [hp, h]

/-- tsLt via same node and lexicographic (physical, logical). -/
theorem tsLt_of_same_node {a b : Timestamp} (hn : b.node = a.node)
    (h : a.physical < b.physical ∨ (a.physical = b.physical ∧ a.logical < b.logical)) :
    tsLt a b := by
  obtain ⟨ap, al, an⟩ := a
  obtain ⟨bp, bl, bn⟩ := b
  have hn2 : bn = an := hn
  rw [show (⟨bp, bl, bn⟩ : Timestamp) = ⟨bp, bl, an⟩ from by rw [hn2]]
  exact (compare_same_node ap al bp bl an).mpr h

/-- Now never changes the node id. -/
theorem clockNow_node (w : Nat) (c : ClockState) :
    (clockNow w c).node = c.node := by
  unfold clockNow
  split <;> rfl

/-- A clock step never changes the node id. -/
theorem clockStep_node (c : ClockState) (op : ClockOp) :
    (clockStep c op).node = c.node := by
  cases op with
  | now w => exact clockNow_node w c
  | update w r => rfl

/-- The physical field after Update is the three-way maximum. -/
theorem clockUpdate_phys (w : Nat) (r : Timestamp) (c : ClockState) :
    (clockUpdate w r c).lastPhysical = max (max w c.lastPhysical) r.physical := rfl

/-- The logical field after Update, by case. -/
theorem clockUpdate_logical (w : Nat) (r : Timestamp) (c : ClockState) :
    (clockUpdate w r c).lastLogical =
      (if max (max w c.lastPhysical) r.physical = c.lastPhysical ∧
          max (max w c.lastPhysical) r.physical = r.physical then
        if r.logical < c.lastLogical then (c.lastLogical + 1) % U32
        else (r.logical + 1) % U32
      else if max (max w c.lastPhysical) r.physical = c.lastPhysical then
        (c.lastLogical + 1) % U32
      else if max (max w c.lastPhysical) r.physical = r.physical then
        (r.logical + 1) % U32
      else 0) := rfl

/-- The state pair strictly increases on a wrap-free Now. -/
theorem clockNow_lt (w : Nat) (c : ClockState)
    (h : c.lastPhysical < w ∨ c.lastLogical + 1 < U32) :
    c.lastPhysical < (clockNow w c).lastPhysical ∨
    (c.lastPhysical = (clockNow w c).lastPhysical ∧
      c.lastLogical < (clockNow w c).lastLogical) := by
  unfold clockNow
  by_cases hw : c.lastPhysical < w
  · rw [if_pos hw]
    exact Or.inl hw
  · rw [if_neg hw]
    have hl : c.lastLogical + 1 < U32 := by
      rcases h with h | h
      · exact absurd h hw
      · exact h
    refine Or.inr ⟨rfl, ?_⟩
    show c.lastLogical < (c.lastLogical + 1) % U32
    rw [Nat.mod_eq_of_lt hl]
    omega

/-- The state pair strictly increases on a wrap-free Update. -/
theorem clockUpdate_lt (w : Nat) (r : Timestamp) (c : ClockState)
    (h1 : c.lastLogical + 1 < U32) (h2 : r.logical + 1 < U32) :
    c.lastPhysical < (clockUpdate w r c).lastPhysical ∨
    (c.lastPhysical = (clockUpdate w r c).lastPhysical ∧
      c.lastLogical < (clockUpdate w r c).lastLogical) := by
  have hge : c.lastPhysical ≤ (clockUpdate w r c).lastPhysical := by
    rw [clockUpdate_phys]
    exact le_trans (le_max_right w c.lastPhysical) (le_max_left _ _)
  by_cases hc : c.lastPhysical = (clockUpdate w r c).lastPhysical
  · refine Or.inr ⟨hc, ?_⟩
    rw [clockUpdate_phys] at hc
    rw [clockUpdate_logical]
    by_cases hb : max (max w c.lastPhysical) r.physical = c.lastPhysical ∧
        max (max w c.lastPhysical) r.physical = r.physical
    · rw [if_pos hb]
      by_cases hrl : r.logical < c.lastLogical
      · rw [if_pos hrl, Nat.mod_eq_of_lt h1]; omega
      · rw [if_neg hrl, Nat.mod_eq_of_lt h2]; omega
    · rw [if_neg hb, if_pos hc.symm, Nat.mod_eq_of_lt h1]
      omega
  · exact Or.inl (lt_of_le_of_ne hge hc)

/-- The state pair strictly increases on every wrap-free clock step. -/
theorem clockStep_lt (c : ClockState) (op : ClockOp) (h : noWrap c op = true) :
    c.lastPhysical < (clockStep c op).lastPhysical ∨
    (c.lastPhysical = (clockStep c op).lastPhysical ∧
      c.lastLogical < (clockStep c op).lastLogical) := by
  cases op with
  | now w =>
    simp only [noWrap, Bool.or_eq_true, decide_eq_true_eq] at h
    exact clockNow_lt w c h
  | update w r =>
    simp only [noWrap, Bool.and_eq_true, decide_eq_true_eq] at h
    exact clockUpdate_lt w r c h.1 h.2

/-- Every timestamp returned along a wrap-free run lies strictly above
the starting state, on the starting node. -/
theorem runEmits_all_gt (ops : List ClockOp) (c : ClockState)
    (h : wrapFree c ops = true) :
    ∀ t ∈ runEmits c ops, t.node = c.node ∧
      (c.lastPhysical < t.physical ∨
        (c.lastPhysical = t.physical ∧ c.lastLogical < t.logical)) := by
  induction ops generalizing c with
  | nil =>
    intro t ht
    simp [runEmits] at ht
  | cons op ops ih =>
    simp only [wrapFree, Bool.and_eq_true] at h
    intro t ht
    simp only [runEmits, List.mem_cons] at ht
    rcases ht with rfl | ht
    · exact ⟨clockStep_node c op, clockStep_lt c op h.1⟩
    · have hall := ih (clockStep c op) h.2 t ht
      have hs := clockStep_lt c op h.1
      refine ⟨by rw [hall.1, clockStep_node], ?_⟩
      have ha := hall.2
      omega

/-- Along a wrap-free run the emitted timestamps, together with the
starting state, are pairwise strictly increasing. -/
theorem clock_trace_pairwise (ops : List ClockOp) (c : ClockState)
    (h : wrapFree c ops = true) :
    List.Pairwise tsLt (emit c :: runEmits c ops) := by
  induction ops generalizing c with
  | nil => simp [runEmits]
  | cons op ops ih =>
    simp only [wrapFree, Bool.and_eq_true] at h
    have hrest := ih (clockStep c op) h.2
    simp only [runEmits]
    refine List.Pairwise.cons ?_ hrest
    intro t ht
    rcases List.mem_cons.mp ht with rfl | ht
    · exact tsLt_of_same_node (clockStep_node c op) (clockStep_lt c op h.1)
    · have hg := runEmits_all_gt ops (clockStep c op) h.2 t ht
      have hs := clockStep_lt c op h.1
      have hn : t.node = (emit c).node := by
        show t.node = c.node
        rw [hg.1]
        exact clockStep_node c op
      refine tsLt_of_same_node hn ?_
      show c.lastPhysical < t.physical ∨
        (c.lastPhysical = t.physical ∧ c.lastLogical < t.logical)
      have ha := hg.2
      omega

/-- A wrap-free Update returns a timestamp strictly above the remote. -/
theorem clockUpdate_gt_remote (c : ClockState) (w : Nat) (r : Timestamp)
    (h1 : c.lastLogical + 1 < U32) (h2 : r.logical + 1 < U32) :
    tsLt r (emit (clockUpdate w r c)) := by
  have hphys : (emit (clockUpdate w r c)).physical =
      max (max w c.lastPhysical) r.physical := rfl
  by_cases hlt : r.physical < max (max w c.lastPhysical) r.physical
  · exact compare_lt_of_phys_lt (by rw [hphys]; exact hlt)
  · have heq : max (max w c.lastPhysical) r.physical = r.physical :=
      le_antisymm (Nat.not_lt.mp hlt) (le_max_right _ _)
    refine compare_lt_of_logical_lt (by rw [hphys, heq]) ?_
    show r.logical < (clockUpdate w r c).lastLogical
    rw [clockUpdate_logical]
    by_cases hb : max (max w c.lastPhysical) r.physical = c.lastPhysical ∧
        max (max w c.lastPhysical) r.physical = r.physical
    · rw [if_pos hb]
      by_cases hrl : r.logical < c.lastLogical
      · rw [if_pos hrl, Nat.mod_eq_of_lt h1]; omega
      · rw [if_neg hrl, Nat.mod_eq_of_lt h2]; omega
    · have hbc : ¬ max (max w c.lastPhysical) r.physical = c.lastPhysical := by
        intro hcc
        exact hb ⟨hcc, heq⟩
      rw [if_neg hb, if_neg hbc, if_pos heq, Nat.mod_eq_of_lt h2]
      omega

/-- C4 (amended): provided no call wraps the uint32 logical counter,
every sequence of Now/Update calls on one clock produces timestamps that
are pairwise strictly increasing under the total order (each also above
the starting state), and every wrap-free Update returns a timestamp
strictly greater than the remote timestamp it absorbed. -/
theorem clock_trace_monotonic_no_wrap (c : ClockState) (ops : List ClockOp)
    (h : wrapFree c ops = true) :
    List.Pairwise tsLt (emit c :: runEmits c ops) ∧
    (∀ w : Nat, ∀ r : Timestamp, ∀ d : ClockState,
      d.lastLogical + 1 < U32 → r.logical + 1 < U32 →
      tsLt r (emit (clockUpdate w r d))) :=
  ⟨clock_trace_pairwise ops c h,
    fun w r d hd hr => clockUpdate_gt_remote d w r hd hr⟩

/-- Clock state used in the C4 witness. -/
def wClk : ClockState := { node := "n", lastPhysical := 100, lastLogical := 0 }

/-- Call sequence used in the C4 witness: two Now calls, an Update that
absorbs a remote timestamp, and a final Now. -/
def wOps : List ClockOp :=
  [ClockOp.now 100, ClockOp.now 101,
   ClockOp.update 90 { physical := 200, logical := 5, node := "m" },
   ClockOp.now 201]

/-- C4, witness at the concrete wrap-free trace wOps from wClk. -/
theorem clock_trace_monotonic_no_wrap_witness :
    wrapFree wClk wOps = true ∧
    (List.Pairwise tsLt (emit wClk :: runEmits wClk wOps) ∧
      (∀ w : Nat, ∀ r : Timestamp, ∀ d : ClockState,
        d.lastLogical + 1 < U32 → r.logical + 1 < U32 →
        tsLt r (emit (clockUpdate w r d)))) :=
  ⟨rfl, clock_trace_monotonic_no_wrap wClk wOps rfl⟩

/-- Fresh clock used in the C4 counterexample (NewClock "n"). -/
def cxClk : ClockState := { node := "n", lastPhysical := 0, lastLogical := 0 }

/-- Two calls from the fresh clock that wrap the logical counter: an
Update absorbing a remote with logical 2^32-2, then a Now whose wall
reading has not advanced past the absorbed physical time. -/
def cxOps : List ClockOp :=
  [ClockOp.update 10 { physical := 20, logical := 4294967294, node := "m" },
   ClockOp.now 10]

/-- C4, counterexample: on the concrete trace cxOps from a fresh clock the
returned timestamps are not strictly increasing — the second call wraps
the logical counter from 2^32-1 to 0 and goes backwards. -/
theorem clock_monotonicity_counterexample :
    ¬ List.Pairwise tsLt (emit cxClk :: runEmits cxClk cxOps) := by
  intro h
  cases h with
  | cons h0 htail =>
    cases htail with
    | cons h1 h2 =>
      have hlt := h1 _ (List.mem_cons_self _ _)
      exact absurd hlt (by decide)

/-- Clock state at logical-counter saturation (lastLogical = 2^32 - 1). -/
def satClk : ClockState :=
  { node := "n", lastPhysical := 10, lastLogical := 4294967295 }

/-- Remote timestamp at logical-counter saturation. -/
def satRemote : Timestamp :=
  { physical := 20, logical := 4294967295, node := "m" }

/-- C9, code evaluation: at logical-counter saturation the clock does not
fail; Now silently wraps the counter to 0 and returns a timestamp that is
not greater than the previous one, and an Update by a fresh clock that
absorbs a remote at logical 2^32-1 returns a timestamp not greater than
that remote. -/
theorem clock_logical_wraps_silently :
    (clockNow 10 satClk).lastLogical = 0 ∧
    ¬ tsLt (emit satClk) (emit (clockNow 10 satClk)) ∧
    ¬ tsLt satRemote (emit (clockUpdate 10 satRemote cxClk)) := by
  refine ⟨rfl, by decide, by decide⟩

/-! Token bucket claims. -/

/-- Concrete bucket for the C8 statements: 50 tokens, burst 100,
rate 10 bytes per second. -/
def tbC : TokenBucket := { tokens := 50, maxTokens := 100, rate := 10 }

/-- C8, counterexample: the code has no negative-elapsed guard.  On tbC a
-1 second elapsed (clock skew) at sub-HIGH priority lowers the balance
from 50 to 40; the claim says a backwards time step never decreases the
token balance. -/
theorem token_bucket_negative_elapsed_counterexample :
    (tbAllow tbC (-1) 0 PriorityNone).2.tokens = 40 ∧
    (tbAllow tbC (-1) 0 PriorityNone).2.tokens < tbC.tokens := by
  constructor
  · norm_num [tbAllow, tbC, PriorityNone, PriorityHigh]
  · norm_num [tbAllow, tbC, PriorityNone, PriorityHigh]

/-- C8 (amended): for sub-HIGH priorities Allow applies
tokens := min(maxTokens, tokens + elapsed*rate) with no guard on negative
elapsed, so a backwards time step with a positive rate strictly decreases
the token balance (shown for a zero-byte probe). -/
theorem token_bucket_no_skew_guard (tb : TokenBucket) (e : Rat)
    (priority : Nat) (hp : priority < PriorityHigh) :
    (tbAllow tb e 0 priority).2.tokens =
      min tb.maxTokens (tb.tokens + e * tb.rate) ∧
    (e < 0 → 0 < tb.rate → tb.tokens ≤ tb.maxTokens →
      (tbAllow tb e 0 priority).2.tokens < tb.tokens) := by
  have hnp : ¬ PriorityHigh ≤ priority := Nat.not_le.mpr hp
  have hmain : (tbAllow tb e 0 priority).2.tokens =
      min tb.maxTokens (tb.tokens + e * tb.rate) := by
    simp only [tbAllow, if_neg hnp]
    by_cases hm : tb.maxTokens < tb.tokens + e * tb.rate
    · rw [if_pos hm]
      by_cases hz : tb.maxTokens < ((0 : Nat) : Rat)
      · rw [if_pos hz]
        simp [min_eq_left (le_of_lt hm)]
      · rw [if_neg hz]
        simp [min_eq_left (le_of_lt hm)]
    · rw [if_neg hm]
      by_cases hz : tb.tokens + e * tb.rate < ((0 : Nat) : Rat)
      · rw [if_pos hz]
        simp [min_eq_right (not_lt.mp hm)]
      · rw [if_neg hz]
        simp [min_eq_right (not_lt.mp hm)]
  refine ⟨hmain, fun hneg hrate hle => ?_⟩
  rw [hmain]
  have hmr : e * tb.rate < 0 := mul_neg_of_neg_of_pos hneg hrate
  calc min tb.maxTokens (tb.tokens + e * tb.rate)
      ≤ tb.tokens + e * tb.rate := min_le_right _ _
    _ < tb.tokens := by linarith

/-- C8, witness of the amended theorem at the concrete bucket tbC with
elapsed -1 at priority NONE. -/
theorem token_bucket_no_skew_guard_witness :
    PriorityNone < PriorityHigh ∧
    ((tbAllow tbC (-1) 0 PriorityNone).2.tokens =
        min tbC.maxTokens (tbC.tokens + (-1) * tbC.rate) ∧
      ((-1 : Rat) < 0 → 0 < tbC.rate → tbC.tokens ≤ tbC.maxTokens →
        (tbAllow tbC (-1) 0 PriorityNone).2.tokens < tbC.tokens)) :=
  ⟨by decide, token_bucket_no_skew_guard tbC (-1) PriorityNone (by decide)⟩
